import Mathlib

/-!
Verification of the py2binmod compiler pipeline (a Rust tool that converts a
Python package into a compiled Rust artifact embedding a Python interpreter).

The development shallowly embeds the parts of the source the claims refer to:

* `src/types.rs` — the `ParameterType` grammar, `Module`, `Module::import_path`;
* `src/parser/traits.rs` — `ParameterType::try_from_ast`, `Parameter`,
  `ModuleFunction`, `HostFunction` extraction;
* `src/parser/ast_analyzer.rs` — decorator recognition and per-file analysis;
* `src/parser/file_walker/` — the ignore policy and the tree walk;
* `src/parser/layout_resolver.rs` — module discovery without a hint;
* `src/parser/mod.rs` — fail-fast project assembly;
* `src/codegen/lib_rs.rs` — host-function group selection and the
  dotted import path used by the generated shims.

Python AST nodes (a fragment of `ruff_python_ast`) are modelled as a mutual
inductive family; filesystem paths are lists of components; the filesystem
seen by the layout resolver is abstracted by the list of walked files.
Machine-level concerns (async I/O, RustPython, tokio) do not affect the
decided properties and are not modelled.
-/

namespace Py2Binmod

/-- Binary operators of the Python AST fragment we need (`ruff` has more;
only `BitOr` is accepted by the type resolver, so one other operator
suffices to represent "any other operator"). -/
inductive PyOp where
  | bitOr
  | add
deriving DecidableEq, Repr

mutual
/-- Python expressions, mirroring the `ruff_python_ast::Expr` variants consumed
by `ParameterType::try_from_ast` and by the decorator scanner
(`Name`, `Attribute`, `BinOp`, `Subscript`, `Tuple`, `Call`, `StringLiteral`,
`NoneLiteral`, `Starred`); `otherExpr` stands for every remaining variant,
which the source code routes to catch-all arms. -/
inductive PyExpr where
  | name (id : String)
  | attribute (value : PyExpr) (attr : String)
  | binOp (left : PyExpr) (op : PyOp) (right : PyExpr)
  | subscript (value : PyExpr) (slice : PyExpr)
  | tupleE (elts : PyExprList)
  | call (func : PyExpr) (args : PyExprList) (keywords : PyKeywords)
  | stringLiteral (value : String)
  | noneLiteral
  | starred (value : PyExpr)
  | otherExpr
deriving Repr

/-- A list of expressions, as a mutual inductive so that recursive functions
over the family are structurally recursive. -/
inductive PyExprList where
  | nil
  | cons (head : PyExpr) (tail : PyExprList)
deriving Repr

/-- Keyword arguments of a call: `arg = none` models a `**kwargs` splat. -/
inductive PyKeywords where
  | nil
  | cons (arg : Option String) (value : PyExpr) (tail : PyKeywords)
deriving Repr
end

/-- Length of a `PyExprList` (matches `args.len()` on the Rust side). -/
def PyExprList.length : PyExprList → Nat
  | .nil => 0
  | .cons _ rest => 1 + rest.length

/-- The closed type grammar from `src/types.rs` (`enum ParameterType`). -/
inductive ParameterType where
  | string
  | integer
  | float
  | boolean
  | list (t : ParameterType)
  | tuple (ts : List ParameterType)
  | map (key_type : ParameterType) (value_type : ParameterType)
  | optional (t : ParameterType)
  | none
  | any
deriving Repr

/-- `normalize_ident` from `ParameterType::try_from_ast` in
`src/parser/traits.rs`. -/
def normalizeIdent (name : String) : String :=
  match name with
  | "int" | "builtins.int" => "int"
  | "float" | "builtins.float" => "float"
  | "str" | "builtins.str" => "str"
  | "bool" | "builtins.bool" => "bool"
  | "None" | "NoneType" => "None"
  | other => other

/-- `parse_name` from `src/parser/traits.rs`: a `Name` yields its identifier;
an `Attribute` chain rooted at a `Name` yields the dotted path; anything else
yields `none`. (The Rust loop collects attributes downward and reverses;
this recursion produces the same dotted string.) -/
def parseName : PyExpr → Option String
  | .name n => some n
  | .attribute v a => (parseName v).map (fun base => base ++ "." ++ a)
  | _ => none

/-- Deletes every occurrence of `"typing."` left to right, as Rust's
`str::replace("typing.", "")` does.  Implemented on characters so that it
reduces definitionally (Lean's `String.replace` does not). -/
def stripTypingQual : List Char → List Char
  | 't' :: 'y' :: 'p' :: 'i' :: 'n' :: 'g' :: '.' :: rest => stripTypingQual rest
  | c :: rest => c :: stripTypingQual rest
  | [] => []

/-- Deletes every occurrence of `"collections.abc."`, as Rust's
`str::replace("collections.abc.", "")` does. -/
def stripCollectionsAbcQual : List Char → List Char
  | 'c' :: 'o' :: 'l' :: 'l' :: 'e' :: 'c' :: 't' :: 'i' :: 'o' :: 'n' :: 's' :: '.' :: 'a' :: 'b' :: 'c' :: '.' :: rest =>
      stripCollectionsAbcQual rest
  | c :: rest => c :: stripCollectionsAbcQual rest
  | [] => []

/-- `base.replace("typing.", "").replace("collections.abc.", "")` from the
subscript arm of `ParameterType::try_from_ast`. -/
def normalizeBase (base : String) : String :=
  String.mk (stripCollectionsAbcQual (stripTypingQual base.toList))

/-- `parse_subscript`'s slice handling from `src/parser/traits.rs`: a tuple
slice contributes its elements as the type arguments, any other slice is a
single argument. -/
def sliceArgs : PyExpr → PyExprList
  | .tupleE elts => elts
  | e => .cons e .nil

mutual

/-- `ParameterType::try_from_ast` from `src/parser/traits.rs`.  The subscript
arm inlines `parse_subscript`: the tuple-slice case is split out so the
recursion stays structural, and the non-tuple slice (a single type argument)
is handled directly — for every base the behaviour agrees with the Rust
match on `(base, args)` where `args = sliceArgs slice`. -/
def tryFromAst : PyExpr → Except String ParameterType
  | .name n =>
    match normalizeIdent n with
    | "int" => .ok .integer
    | "float" => .ok .float
    | "str" => .ok .string
    | "bool" => .ok .boolean
    | "None" => .ok ParameterType.none
    | _ => .ok .any
  | .binOp l op r =>
    match op with
    | .bitOr =>
      match tryFromAst l with
      | .error e => .error e
      | .ok lt =>
        match tryFromAst r with
        | .error e => .error e
        | .ok rt =>
          match rt with
          | ParameterType.none => .ok (.optional lt)
          | _ =>
            match lt with
            | ParameterType.none => .ok (.optional rt)
            | _ => .error "Only Optional unions supported (T | None)"
    | _ => .error "Unsupported binary operation in type annotation"
  | .subscript value (.tupleE elts) =>
    match parseName value with
    | Option.none => .error "Unsupported subscript base expression"
    | Option.some base =>
      let b := normalizeBase base
      if b = "tuple" ∨ b = "Tuple" then
        match tryFromAstList elts with
        | .ok ts => .ok (.tuple ts)
        | .error e => .error e
      else
        trySubscriptMulti b elts
  | .subscript value slice =>
    match parseName value with
    | Option.none => .error "Unsupported subscript base expression"
    | Option.some base =>
      let b := normalizeBase base
      if b = "list" ∨ b = "List" then
        match tryFromAst slice with
        | .ok t => .ok (.list t)
        | .error e => .error e
      else if b = "dict" ∨ b = "Dict" ∨ b = "Mapping" then
        .error "Dict type annotation requires two type arguments"
      else if b = "tuple" ∨ b = "Tuple" then
        match tryFromAst slice with
        | .ok t => .ok (.tuple [t])
        | .error e => .error e
      else if b = "Optional" then
        match tryFromAst slice with
        | .ok t => .ok (.optional t)
        | .error e => .error e
      else .ok .any
  | .noneLiteral => .ok ParameterType.none
  | _ => .error "Unsupported type annotation expression"

/-- The subscript arms for a tuple slice and a base other than
`tuple`/`Tuple`: `list[T]` takes the first argument and ignores the rest;
`dict[K, V]` demands exactly two arguments; `Optional[T]` takes the first;
any other base is the permissive `Any` fallback.  Matches the Rust arms for
`args` of arbitrary length. -/
def trySubscriptMulti (b : String) (elts : PyExprList) : Except String ParameterType :=
  if b = "list" ∨ b = "List" then
    match elts with
    | .nil => .error "Missing type argument for List"
    | .cons a _ =>
      match tryFromAst a with
      | .ok t => .ok (.list t)
      | .error e => .error e
  else if b = "dict" ∨ b = "Dict" ∨ b = "Mapping" then
    match elts with
    | .cons k (.cons v .nil) =>
      match tryFromAst k with
      | .error e => .error e
      | .ok kt =>
        match tryFromAst v with
        | .error e => .error e
        | .ok vt => .ok (.map kt vt)
    | _ => .error "Dict type annotation requires two type arguments"
  else if b = "Optional" then
    match elts with
    | .nil => .error "Missing type argument for Optional"
    | .cons a _ =>
      match tryFromAst a with
      | .ok t => .ok (.optional t)
      | .error e => .error e
  else .ok .any

/-- Resolves every element of a tuple slice (`tuple[T1, …, Tn]`),
short-circuiting on the first error like `collect::<Result<Vec<_>, _>>()`. -/
def tryFromAstList : PyExprList → Except String (List ParameterType)
  | .nil => .ok []
  | .cons a rest =>
    match tryFromAst a with
    | .error e => .error e
    | .ok t =>
      match tryFromAstList rest with
      | .error e => .error e
      | .ok ts => .ok (t :: ts)

end

/-! ## Data model (`src/types.rs`) -/

/-- `Parameter` from `src/types.rs`. -/
structure Parameter where
  name : String
  type_hint : ParameterType
deriving Repr

/-- `ModuleFunction` from `src/types.rs`. -/
structure ModuleFunction where
  name : String
  docstring : Option String
  parameters : List Parameter
  return_type : ParameterType
deriving Repr

/-- `HostFunction` from `src/types.rs`. -/
structure HostFunction where
  name : String
  parameters : List Parameter
  return_type : ParameterType
deriving Repr

/-- `HostFunctions` from `src/types.rs` (the Rust field `namespace` is a Lean
keyword, hence `nspace`). -/
structure HostFunctions where
  nspace : String
  functions : List HostFunction
deriving Repr

/-- `Module` from `src/types.rs`.  Paths are lists of components; the Rust
`ModuleFunctions` newtype around `Vec<ModuleFunction>` is flattened to the
underlying list. -/
structure Module where
  name : String
  file_path : List String
  module_functions : List ModuleFunction
  host_functions : Option HostFunctions
deriving Repr

/-! ## Python statements and the per-file analyzer (`src/parser/ast_analyzer.rs`,
`src/parser/traits.rs`) -/

/-- One formal parameter of a Python function: what
`ruff_python_ast::Parameter` exposes through `name()` and `annotation()`
(the annotation written `annot` because of Lean lexical restrictions). -/
structure PyParamDecl where
  name : String
  annot : Option PyExpr
deriving Repr

/-- Python statements, mirroring the `ruff_python_ast::Stmt` variants the
analyzer inspects: top-level function and class definitions (with their
decorator lists and bodies) and expression statements (for docstrings);
`otherStmt` stands for every remaining variant, which the analyzer skips. -/
inductive PyStmt where
  | functionDef (name : String) (decorators : List PyExpr) (params : List PyParamDecl)
      (returns : Option PyExpr) (body : List PyStmt)
  | classDef (name : String) (decorators : List PyExpr) (body : List PyStmt)
  | exprStmt (value : PyExpr)
  | otherStmt
deriving Repr

/-- Docstring extraction from `ModuleFunction::try_from_ast` in
`src/parser/traits.rs`: the first body statement, when it is an expression
statement holding a string literal. -/
def docstringOf (body : List PyStmt) : Option String :=
  match body.head? with
  | some (.exprStmt (.stringLiteral s)) => some s
  | _ => Option.none

/-- `Parameter::try_from_ast` from `src/parser/traits.rs`: a missing type
annotation is a hard error, otherwise the annotation is resolved. -/
def parameterTryFromAst (p : PyParamDecl) : Except String Parameter :=
  match p.annot with
  | Option.none => .error ("Missing type annotation for parameter " ++ p.name)
  | some ann =>
    match tryFromAst ann with
    | .error e => .error e
    | .ok t => .ok { name := p.name, type_hint := t }

/-- Resolves a parameter list, short-circuiting on the first error like
`collect::<Result<Vec<Parameter>, Error>>()`. -/
def parametersTryFromAst : List PyParamDecl → Except String (List Parameter)
  | [] => .ok []
  | p :: rest =>
    match parameterTryFromAst p with
    | .error e => .error e
    | .ok param =>
      match parametersTryFromAst rest with
      | .error e => .error e
      | .ok params => .ok (param :: params)

/-- `ModuleFunction::try_from_ast` from `src/parser/traits.rs`: docstring from
the first body statement, every parameter annotated, mandatory return
annotation. -/
def moduleFunctionTryFromAst (name : String) (params : List PyParamDecl)
    (returns : Option PyExpr) (body : List PyStmt) : Except String ModuleFunction :=
  match parametersTryFromAst params with
  | .error e => .error e
  | .ok parameters =>
    match returns with
    | Option.none => .error ("Missing return type annotation for function " ++ name)
    | some r =>
      match tryFromAst r with
      | .error e => .error e
      | .ok returnType =>
        .ok { name := name, docstring := docstringOf body,
              parameters := parameters, return_type := returnType }

/-- `HostFunction::try_from_ast` from `src/parser/traits.rs` (same as a module
function, but no docstring is recorded). -/
def hostFunctionTryFromAst (name : String) (params : List PyParamDecl)
    (returns : Option PyExpr) : Except String HostFunction :=
  match parametersTryFromAst params with
  | .error e => .error e
  | .ok parameters =>
    match returns with
    | Option.none => .error ("Missing return type annotation for host function " ++ name)
    | some r =>
      match tryFromAst r with
      | .error e => .error e
      | .ok returnType =>
        .ok { name := name, parameters := parameters, return_type := returnType }

/-- `AstAnalyzer::is_decorator_name` from `src/parser/ast_analyzer.rs`: a
decorator matches by bare name, by the trailing attribute of a qualified
name, or by either of those shapes inside a call. -/
def isDecoratorName (decorator : PyExpr) (name : String) : Bool :=
  match decorator with
  | .name n => n == name
  | .attribute _ a => a == name
  | .call (.name n) _ _ => n == name
  | .call (.attribute _ a) _ _ => a == name
  | _ => false

/-- `AstAnalyzer::has_func_decorator`. -/
def hasFuncDecorator (decorators : List PyExpr) (name : String) : Bool :=
  decorators.any (fun d => isDecoratorName d name)

/-- `AstAnalyzer::has_class_decorator` (textually the same check as for
functions). -/
def hasClassDecorator (decorators : List PyExpr) (name : String) : Bool :=
  decorators.any (fun d => isDecoratorName d name)

/-- `AstAnalyzer::get_decorator_args`: only a call-shaped decorator has
arguments. -/
def getDecoratorArgs (decorator : PyExpr) : Option (PyExprList × PyKeywords) :=
  match decorator with
  | .call _ args keywords => some (args, keywords)
  | _ => Option.none

/-- Keyword lookup of `ruff_python_ast::Arguments::find_keyword` (models the
external `ruff` crate: the first keyword whose name matches). -/
def findKeyword : PyKeywords → String → Option PyExpr
  | .nil, _ => Option.none
  | .cons (some a) v rest, name => if a == name then some v else findKeyword rest name
  | .cons Option.none _ rest, name => findKeyword rest name

/-- Positional lookup of `ruff_python_ast::Arguments::find_positional`
(models the external `ruff` crate: the n-th positional argument among the
leading non-starred arguments). -/
def findPositional : PyExprList → Nat → Option PyExpr
  | .nil, _ => Option.none
  | .cons (.starred _) _, _ => Option.none
  | .cons a _, 0 => some a
  | .cons _ rest, Nat.succ n => findPositional rest n

/-- `ruff_python_ast::Arguments::find_argument_value` (models the external
`ruff` crate): keyword argument first, then the positional at the given
index. -/
def findArgumentValue (args : PyExprList) (keywords : PyKeywords)
    (name : String) (position : Nat) : Option PyExpr :=
  match findKeyword keywords name with
  | some v => some v
  | Option.none => findPositional args position

/-- A string literal expression's value (the only accepted shape for the
`namespace` argument). -/
def stringLiteralValue : PyExpr → Option String
  | .stringLiteral s => some s
  | _ => Option.none

/-- The namespace extraction pipeline inside
`AstAnalyzer::parse_host_fns_class`: decorator arguments, then the
`namespace` argument (keyword or first positional), then its string-literal
value. -/
def namespaceArg (decorator : PyExpr) : Option String :=
  match getDecoratorArgs decorator with
  | Option.none => Option.none
  | some (args, keywords) =>
    match findArgumentValue args keywords "namespace" 0 with
    | Option.none => Option.none
    | some expr => stringLiteralValue expr

/-- The method-collection loop of `AstAnalyzer::parse_host_fns_class`: every
direct body statement that is a function definition carrying a `host_fn`
decorator is extracted, fail-fast. -/
def hostFnsOfBody : List PyStmt → Except String (List HostFunction)
  | [] => .ok []
  | stmt :: rest =>
    match stmt with
    | .functionDef n decs ps ret _ =>
      if hasFuncDecorator decs "host_fn" then
        match hostFunctionTryFromAst n ps ret with
        | .error e => .error e
        | .ok hf =>
          match hostFnsOfBody rest with
          | .error e => .error e
          | .ok more => .ok (hf :: more)
      else hostFnsOfBody rest
    | _ => hostFnsOfBody rest

/-- `AstAnalyzer::parse_host_fns_class` from `src/parser/ast_analyzer.rs`:
find the first `host_fns` decorator, demand a literal string `namespace`
argument, collect the marked methods; a class with no marked method yields
`none`. -/
def parseHostFnsClass (decorators : List PyExpr) (body : List PyStmt) :
    Except String (Option (String × List HostFunction)) :=
  match decorators.find? (fun d => isDecoratorName d "host_fns") with
  | Option.none => .error "Decorator not found"
  | some dec =>
    match namespaceArg dec with
    | Option.none => .error "Missing namespace argument in host_fns decorator"
    | some ns =>
      match hostFnsOfBody body with
      | .error e => .error e
      | .ok fns =>
        if fns.isEmpty then .ok Option.none
        else .ok (some (ns, fns))

/-- The statement loop of `AstAnalyzer::analyze_file`: top-level functions
with a `mod_fn` decorator are extracted in order; every class with a
`host_fns` decorator that parses to a non-empty group overwrites the current
host-function group (so a later class wins); everything else is skipped. -/
def analyzeStmts : List PyStmt → List ModuleFunction →
    Option (String × List HostFunction) →
    Except String (List ModuleFunction × Option (String × List HostFunction))
  | [], mfs, host => .ok (mfs, host)
  | stmt :: rest, mfs, host =>
    match stmt with
    | .functionDef n decs ps ret body =>
      if hasFuncDecorator decs "mod_fn" then
        match moduleFunctionTryFromAst n ps ret body with
        | .error e => .error e
        | .ok mf => analyzeStmts rest (mfs ++ [mf]) host
      else analyzeStmts rest mfs host
    | .classDef _ decs body =>
      if hasClassDecorator decs "host_fns" then
        match parseHostFnsClass decs body with
        | .error e => .error e
        | .ok Option.none => analyzeStmts rest mfs host
        | .ok (some group) => analyzeStmts rest mfs (some group)
      else analyzeStmts rest mfs host
    | _ => analyzeStmts rest mfs host

/-- Splits a file name into `(file_stem, extension)` with the semantics of
Rust's `Path::file_stem`/`Path::extension`: the extension is the portion
after the final dot, except that a name with no dot, or a leading-dot name
with no further dot, has no extension. -/
def extSplit (name : String) : String × Option String :=
  let rev := name.toList.reverse
  let extRev := rev.takeWhile (fun c => c ≠ '.')
  if extRev.length = rev.length then (name, Option.none)
  else
    let stemRev := rev.drop (extRev.length + 1)
    if stemRev.isEmpty then (name, Option.none)
    else (String.mk stemRev.reverse, some (String.mk extRev.reverse))

/-- `Path::file_stem` on the final component of a path. -/
def fileStem (p : List String) : Option String :=
  p.getLast?.map (fun n => (extSplit n).1)

/-- `Path::extension` on the final component of a path. -/
def extensionOf (p : List String) : Option String :=
  p.getLast?.bind (fun n => (extSplit n).2)

/-- `AstAnalyzer::analyze_file` from `src/parser/ast_analyzer.rs`, over the
outcome of parsing the file's source (`parse_module`): a syntax error
aborts; a file with no marked function and no host group analyzes to
`none`; otherwise a `Module` named after the file stem is produced. -/
def analyzeFile (filePath : List String) (parsed : Except String (List PyStmt)) :
    Except String (Option Module) :=
  match parsed with
  | .error e => .error e
  | .ok stmts =>
    match analyzeStmts stmts [] Option.none with
    | .error e => .error e
    | .ok (mfs, host) =>
      if mfs.isEmpty && host.isNone then .ok Option.none
      else
        match fileStem filePath with
        | Option.none => .error "Invalid file name"
        | some stem =>
          .ok (some { name := stem, file_path := filePath,
                      module_functions := mfs,
                      host_functions := host.map (fun g => ⟨g.1, g.2⟩) })

/-! ## File discovery (`src/parser/file_walker/`) -/

/-- `DefaultFileIgnoreStrategy::should_ignore` from
`src/parser/file_walker/default.rs`, applied to a path's final component.
The `matches!` arms are literal strings — including the glob-looking
`"*.pyc"`, `"*.so"`, … entries, which therefore match only a file literally
named `*.pyc` and so on. -/
def shouldIgnore (name : String) : Bool :=
  match name with
  | ".venv" | "venv" | "__pycache__" | ".git" | ".hg" | ".svn"
  | "node_modules" | "dist" | "build" | "*.egg-info" | "*.pyc"
  | "*.pyo" | "*.pyd" | "*.so" | "*.dll" | "*.dylib" | ".mypy_cache"
  | ".ruff_cache" | ".pytest_cache" => true
  | _ => false

mutual
/-- A directory tree entry (the filesystem as seen by `FileWalker::walk`). -/
inductive FsEntry where
  | file (name : String)
  | dir (name : String) (entries : FsEntryList)
deriving Repr

/-- Directory contents as a mutual inductive list. -/
inductive FsEntryList where
  | nil
  | cons (head : FsEntry) (tail : FsEntryList)
deriving Repr
end

mutual
/-- `FileWalker::walk`'s treatment of one directory entry
(`src/parser/file_walker/mod.rs`): an ignored name is skipped entirely
(an ignored directory is never descended into), a file is collected, a
directory is traversed. -/
def walkEntry (path : List String) : FsEntry → List (List String)
  | .file n => if shouldIgnore n then [] else [path ++ [n]]
  | .dir n entries => if shouldIgnore n then [] else walkEntries (path ++ [n]) entries

/-- Traversal of a directory's entries.  The Rust walk uses an explicit stack
and reports files in an unspecified order; this recursion fixes one order,
which no claim depends on. -/
def walkEntries (path : List String) : FsEntryList → List (List String)
  | .nil => []
  | .cons e rest => walkEntry path e ++ walkEntries path rest
end

/-! ## Layout resolution (`src/parser/layout_resolver.rs`) -/

/-- The error classes of `ParserError` relevant to layout resolution. -/
inductive ParserErr where
  | invalidProjectDir
  | missingVirtualEnv
  | missingSitePackages
  | missingModule
deriving DecidableEq, Repr

/-- `Path::starts_with` on component lists. -/
def pathStartsWith (pre p : List String) : Bool :=
  List.isPrefixOf pre p

/-- `HashSet::insert` modelled on a duplicate-free list (insertion order kept;
only the cardinality and the sole element of a singleton are ever used). -/
def insertNew (acc : List String) (s : String) : List String :=
  if acc.contains s then acc else acc ++ [s]

/-- The candidate-collection loop of `LayoutResolver::resolve` (no-hint
branch): among discovered files under `import_root` whose final component is
`__init__.py`, collect the distinct first components of their paths relative
to `import_root`. -/
def discoverCandidates (importRoot : List String) (files : List (List String)) :
    List String :=
  files.foldl
    (fun acc p =>
      if pathStartsWith importRoot p && (p.getLast? == some "__init__.py") then
        match (p.drop importRoot.length).head? with
        | some first => insertNew acc first
        | Option.none => acc
      else acc)
    []

/-- Whether `p` names a file: the filesystem is abstracted by the walked file
list, so a path is a file exactly when it was discovered. -/
def isFilePath (files : List (List String)) (p : List String) : Bool :=
  files.contains p

/-- Whether `p` names a directory under the same abstraction: some discovered
file lies strictly below it. -/
def isDirPath (files : List (List String)) (p : List String) : Bool :=
  files.any (fun f => pathStartsWith p f && decide (p.length < f.length))

/-- The module-discovery tail of `LayoutResolver::resolve`
(`src/parser/layout_resolver.rs`, no module hint): exactly one candidate is
demanded, and the chosen `module_root = import_root/<name>` must moreover be
a directory directly containing `__init__.py`; every failure is
`MissingModule`.  Returns `(module_root, module_name)`. -/
def resolveModuleDiscovery (importRoot : List String) (files : List (List String)) :
    Except ParserErr (List String × String) :=
  let candidates := discoverCandidates importRoot files
  if candidates.length ≠ 1 then .error .missingModule
  else
    match candidates.head? with
    | Option.none => .error .missingModule
    | some moduleName =>
      let moduleRoot := importRoot ++ [moduleName]
      if !isDirPath files moduleRoot || !isFilePath files (moduleRoot ++ ["__init__.py"]) then
        .error .missingModule
      else .ok (moduleRoot, moduleName)

/-! ## Dotted import paths (`src/types.rs`, `src/codegen/lib_rs.rs`) -/

/-- Strips every trailing repetition of `".py"` from a reversed character
list — the behaviour of Rust's `trim_end_matches(".py")`. -/
def dropPyRev : List Char → List Char
  | 'y' :: 'p' :: '.' :: rest => dropPyRev rest
  | l => l

/-- Whether a reversed character list starts with the reversal of `".py"`. -/
def startsYpDot : List Char → Bool
  | 'y' :: 'p' :: '.' :: _ => true
  | _ => false

/-- Rust's `str::ends_with(".py")`. -/
def endsWithPy (s : String) : Bool :=
  startsYpDot s.toList.reverse

/-- Rust's `str::trim_end_matches(".py")`: removes the suffix `".py"` as many
times as it occurs. -/
def trimEndMatchesPy (s : String) : String :=
  String.mk (dropPyRev s.toList.reverse).reverse

/-- Applies `f` to the last element of a list (the `components.last_mut()`
update in `Module::import_path`). -/
def mapLast (f : String → String) : List String → List String
  | [] => []
  | [x] => [f x]
  | x :: xs => x :: mapLast f xs

/-- `Module::import_path` from `src/types.rs`, over the file path's
components relative to `module_root` (the Rust code first strips the
`module_root` prefix): trim trailing `".py"` repetitions from the last
component when it ends with `".py"`, drop a trailing `__init__`, and join
with dots; an empty remainder yields `none`. -/
def importPathRel (rel : List String) : Option String :=
  let components :=
    mapLast (fun last => if endsWithPy last then trimEndMatchesPy last else last) rel
  let components :=
    if components.getLast? == some "__init__" then components.dropLast else components
  if components.isEmpty then Option.none
  else some (String.intercalate "." components)

/-- The dotted path actually used by
`LibRsGenerator::generate_exported_functions` (`src/codegen/lib_rs.rs`):
`module_name` prefixed to `Module::import_path`, or `module_name` alone when
the relative path reduced to nothing. -/
def effectiveImportPath (moduleName : String) (rel : List String) : String :=
  match importPathRel rel with
  | some s => moduleName ++ "." ++ s
  | Option.none => moduleName

/-- Strips a single trailing `".py"` from a string, if present. -/
def stripPyOnce (s : String) : String :=
  match s.toList.reverse with
  | 'y' :: 'p' :: '.' :: rest => String.mk rest.reverse
  | _ => s

/-- Modelled from the spec: the dotted-path derivation as §4.5 words it —
split into components relative to module_root, "strip the source extension
from the last component" (one occurrence of `".py"`), drop a trailing
package-init component, and prefix the top-level module name (alone when
nothing remains). -/
def specDottedPath (moduleName : String) (rel : List String) : String :=
  let comps := mapLast stripPyOnce rel
  let comps := if comps.getLast? == some "__init__" then comps.dropLast else comps
  if comps.isEmpty then moduleName
  else moduleName ++ "." ++ String.intercalate "." comps

/-- Modelled from the spec as amended: the same derivation, but with *all*
trailing repetitions of the source extension stripped from the last
component (what `trim_end_matches` does). -/
def specDottedPathAmended (moduleName : String) (rel : List String) : String :=
  let comps := mapLast trimEndMatchesPy rel
  let comps := if comps.getLast? == some "__init__" then comps.dropLast else comps
  if comps.isEmpty then moduleName
  else moduleName ++ "." ++ String.intercalate "." comps

/-! ## Host-function group selection in generation (`src/codegen/lib_rs.rs`) -/

/-- The group picked by `LibRsGenerator::generate_host_functions`: the first
module (in context order) carrying a host-function group; its namespace and
functions feed the generated bridge. -/
def findHostFunctionsGroup (modules : List Module) : Option HostFunctions :=
  modules.findSome? (fun m => m.host_functions)

/-- The namespace bound by `LibRsGenerator::generate_initialize`: from the
first module whose group is present, defaulting to `"env"`.  (The Rust code
reaches the inner `unwrap` only under `is_some`, so the inner default is
unreachable.) -/
def initNamespace (modules : List Module) : String :=
  match modules.find? (fun m => m.host_functions.isSome) with
  | some m =>
    match m.host_functions with
    | some hf => hf.nspace
    | Option.none => "env"
  | Option.none => "env"

/-! ## Project assembly (`src/parser/mod.rs`) -/

/-- The per-file filter of `ProjectParser::parse_project`: extension `py` and
path under `module_root` (the Rust closure nests `starts_with` inside the
extension check; the conjunction is the same). -/
def sourceFileFilter (moduleRoot : List String) (p : List String) : Bool :=
  match extensionOf p with
  | some ext => ext == "py" && pathStartsWith moduleRoot p
  | Option.none => false

/-- The sequential analysis of the filtered files, fail-fast on the first
error (`try_collect` over the futures stream; per-file analysis is a pure
function of the file's parse outcome, so order is the file-list order). -/
def analyzeAll : List (List String × Except String (List PyStmt)) →
    Except String (List (Option Module))
  | [] => .ok []
  | f :: rest =>
    match analyzeFile f.1 f.2 with
    | .error e => .error e
    | .ok m =>
      match analyzeAll rest with
      | .error e => .error e
      | .ok ms => .ok (m :: ms)

/-- The module-collection stage of `parse_project`: filter, analyze each file
fail-fast, and flatten the `Option`s (a file analyzing to `none` contributes
nothing). -/
def collectModules (moduleRoot : List String)
    (files : List (List String × Except String (List PyStmt))) :
    Except String (List Module) :=
  match analyzeAll (files.filter (fun f => sourceFileFilter moduleRoot f.1)) with
  | .error e => .error e
  | .ok ms => .ok (ms.filterMap id)

/-- `ProjectContext` from `src/types.rs` (metadata omitted: no claim touches
it). -/
structure ProjectContext where
  venv_dir : List String
  site_packages_dir : List String
  project_dir : List String
  module_root : List String
  module_name : String
  modules : List Module
deriving Repr

/-- The assembly tail of `ProjectParser::parse_project`: once discovery,
metadata and layout have succeeded, the context is built from the collected
modules — any extraction error is returned instead and no context exists. -/
def assembleProject (projectDir venvDir sitePackagesDir moduleRoot : List String)
    (moduleName : String)
    (files : List (List String × Except String (List PyStmt))) :
    Except String ProjectContext :=
  match collectModules moduleRoot files with
  | .error e => .error e
  | .ok modules =>
    .ok { venv_dir := venvDir, site_packages_dir := sitePackagesDir,
          project_dir := projectDir, module_root := moduleRoot,
          module_name := moduleName, modules := modules }

/-! ## Claim C1 — binary unions -/

/-- Claim C1 (counterexample).  The claim asserts that a union whose two
operands both resolve to `None` is a hard error; but `parse_union` tests the
right operand first, so `None | None` resolves successfully to
`Optional(None)` — exhibited here at the concrete annotation
`None | None`. -/
theorem C1_counterexample :
    tryFromAst (PyExpr.binOp PyExpr.noneLiteral PyOp.bitOr PyExpr.noneLiteral) =
      .ok (.optional ParameterType.none) := rfl

/-- Claim C1 (amended): resolution of `A | B` succeeds exactly when both
operands resolve and at least one of them resolves to `None`; when the
right operand resolves to `None` the result is `Optional(left)` (hence
`None | None ↦ Optional(None)`), otherwise `Optional(right)`; two non-None
operands are a hard error. -/
theorem C1_union (a b : PyExpr) :
    ((∃ t, tryFromAst (PyExpr.binOp a PyOp.bitOr b) = .ok t) ↔
      (∃ ta tb, tryFromAst a = .ok ta ∧ tryFromAst b = .ok tb ∧
        (ta = ParameterType.none ∨ tb = ParameterType.none))) ∧
    (∀ ta tb, tryFromAst a = .ok ta → tryFromAst b = .ok tb →
      tryFromAst (PyExpr.binOp a PyOp.bitOr b) =
        match tb, ta with
        | ParameterType.none, _ => .ok (.optional ta)
        | _, ParameterType.none => .ok (.optional tb)
        | _, _ => .error "Only Optional unions supported (T | None)") := by
  have key : tryFromAst (PyExpr.binOp a PyOp.bitOr b) =
      (match tryFromAst a with
       | .error e => .error e
       | .ok lt =>
         match tryFromAst b with
         | .error e => .error e
         | .ok rt =>
           match rt with
           | ParameterType.none => .ok (.optional lt)
           | _ =>
             match lt with
             | ParameterType.none => .ok (.optional rt)
             | _ => .error "Only Optional unions supported (T | None)") := rfl
  constructor
  · constructor
    · rintro ⟨t, ht⟩
      rw [key] at ht
      cases h1 : tryFromAst a with
      | error e => rw [h1] at ht; exact absurd ht (by simp)
      | ok lt =>
        cases h2 : tryFromAst b with
        | error e => rw [h1, h2] at ht; exact absurd ht (by simp)
        | ok rt =>
          rw [h1, h2] at ht
          refine ⟨lt, rt, rfl, rfl, ?_⟩
          cases rt with
          | none => exact Or.inr rfl
          | _ =>
            cases lt with
            | none => exact Or.inl rfl
            | _ => exact absurd ht (by simp)
    · rintro ⟨ta, tb, h1, h2, hor⟩
      rw [key, h1, h2]
      cases tb <;> cases ta <;> first
        | exact ⟨_, rfl⟩
        | (rcases hor with hor | hor <;> exact absurd hor (by simp))
  · intro ta tb h1 h2
    rw [key, h1, h2]
    cases tb <;> cases ta <;> rfl

/-- Claim C1 (witness for `C1_union`): `int | None` and `None | int` both
resolve to `Optional(Integer)` and `int | str` is the union hard error. -/
theorem C1_union_witness :
    tryFromAst (PyExpr.binOp (PyExpr.name "int") PyOp.bitOr PyExpr.noneLiteral) =
      .ok (.optional .integer) ∧
    tryFromAst (PyExpr.binOp PyExpr.noneLiteral PyOp.bitOr (PyExpr.name "int")) =
      .ok (.optional .integer) ∧
    tryFromAst (PyExpr.binOp (PyExpr.name "int") PyOp.bitOr (PyExpr.name "str")) =
      .error "Only Optional unions supported (T | None)" := by
  refine ⟨?_, ?_, ?_⟩
  · exact (C1_union (PyExpr.name "int") PyExpr.noneLiteral).2
      .integer ParameterType.none rfl rfl
  · exact (C1_union PyExpr.noneLiteral (PyExpr.name "int")).2
      ParameterType.none .integer rfl rfl
  · exact (C1_union (PyExpr.name "int") (PyExpr.name "str")).2
      .integer .string rfl rfl

/-! ## Claim C2 — the ignore policy -/

/-- Claim C2 (code bug).  The ignore list is written with glob-looking
entries (`"*.pyc"`, `"*.so"`, …) inside a `matches!`, where they are literal
strings: a real compiled artifact such as `foo.pyc` is *not* ignored and is
returned by the walk, while only a file literally named `*.pyc` would match;
the directory entries (`__pycache__`, `.venv`, …) do work.  Evaluated here on
a tree holding `foo.pyc`, `main.py` and a populated `__pycache__`. -/
theorem C2_code_evaluation :
    shouldIgnore "foo.pyc" = false ∧
    shouldIgnore "*.pyc" = true ∧
    walkEntry []
      (FsEntry.dir "proj"
        (.cons (.file "foo.pyc")
          (.cons (.file "main.py")
            (.cons (.dir "__pycache__" (.cons (.file "m.pyc") .nil)) .nil)))) =
      [["proj", "foo.pyc"], ["proj", "main.py"]] :=
  ⟨rfl, rfl, rfl⟩

/-! ## Claim C3 — which host-functions group wins -/

/-- The host-function groups a statement list declares, in order: each
top-level class carrying a `host_fns` decorator whose parse yields a
non-empty group. -/
def hostClassResults (stmts : List PyStmt) : List (String × List HostFunction) :=
  stmts.filterMap (fun s =>
    match s with
    | .classDef _ decs body =>
      if hasClassDecorator decs "host_fns" then
        match parseHostFnsClass decs body with
        | .ok (some group) => some group
        | _ => Option.none
      else Option.none
    | _ => Option.none)

/-- The last element of a list, defaulting to `dflt` (the value left by a
loop that overwrites an `Option` once per element). -/
def lastOr {α : Type} : List α → Option α → Option α
  | [], dflt => dflt
  | x :: xs, _ => lastOr xs (some x)

/-- The analyzer's statement loop leaves, as its host group, the last
declared group (the Rust loop overwrites `host_functions` on every valid
class). -/
theorem analyzeStmts_lastHost (stmts : List PyStmt) :
    ∀ mfs host mfs' host',
      analyzeStmts stmts mfs host = .ok (mfs', host') →
      host' = lastOr (hostClassResults stmts) host := by
  induction stmts with
  | nil =>
    intro mfs host mfs' host' h
    simp only [analyzeStmts, Except.ok.injEq, Prod.mk.injEq] at h
    simp [hostClassResults, lastOr, h.2]
  | cons stmt rest ih =>
    intro mfs host mfs' host' h
    cases stmt with
    | functionDef n decs ps ret body =>
      simp only [analyzeStmts] at h
      by_cases hd : hasFuncDecorator decs "mod_fn"
      · rw [if_pos hd] at h
        cases hm : moduleFunctionTryFromAst n ps ret body with
        | error e => rw [hm] at h; exact absurd h (by simp)
        | ok mf =>
          rw [hm] at h
          simpa [hostClassResults] using ih _ _ _ _ h
      · rw [if_neg hd] at h
        simpa [hostClassResults] using ih _ _ _ _ h
    | classDef n decs body =>
      simp only [analyzeStmts] at h
      by_cases hd : hasClassDecorator decs "host_fns"
      · rw [if_pos hd] at h
        cases hp : parseHostFnsClass decs body with
        | error e => rw [hp] at h; exact absurd h (by simp)
        | ok g? =>
          cases g? with
          | none =>
            rw [hp] at h
            simpa [hostClassResults, hd, hp] using ih _ _ _ _ h
          | some group =>
            rw [hp] at h
            have := ih _ _ _ _ h
            simpa [hostClassResults, hd, hp, lastOr] using this
      · rw [if_neg hd] at h
        simpa [hostClassResults, hd] using ih _ _ _ _ h
    | exprStmt v =>
      simp only [analyzeStmts] at h
      simpa [hostClassResults] using ih _ _ _ _ h
    | otherStmt =>
      simp only [analyzeStmts] at h
      simpa [hostClassResults] using ih _ _ _ _ h

/-- A host-functions class declaring namespace `ns` with one `host_fn`
method named `fname` returning `int` (sample data for the claims about
group selection). -/
def sampleHostClass (ns fname : String) : PyStmt :=
  PyStmt.classDef "H"
    [PyExpr.call (PyExpr.name "host_fns") PyExprList.nil
      (PyKeywords.cons (some "namespace") (PyExpr.stringLiteral ns) PyKeywords.nil)]
    [PyStmt.functionDef fname [PyExpr.name "host_fn"] [] (some (PyExpr.name "int")) []]

/-- Claim C3 (counterexample).  The claim says the *first* discovered
host-functions declaration wins; but within one file the analyzer's loop
overwrites the group on every valid class, so with two marked classes
(namespaces `ns_a` then `ns_b`) the assembled `Module` carries `ns_b`, the
*last* one. -/
theorem C3_counterexample :
    analyzeFile ["mod.py"]
        (.ok [sampleHostClass "ns_a" "fa", sampleHostClass "ns_b" "fb"]) =
      .ok (some
        { name := "mod", file_path := ["mod.py"], module_functions := [],
          host_functions := some
            { nspace := "ns_b",
              functions := [{ name := "fb", parameters := [], return_type := .integer }] } }) :=
  rfl

/-- Claim C3 (amended): within one file the **last** valid host-functions
class wins (the loop overwrites the group), and across the module list the
**first** module carrying a group supplies both the generated bridge
(`generate_host_functions`) and the namespace bound at initialization
(`generate_initialize`). -/
theorem C3_group_selection :
    (∀ (filePath : List String) (stmts : List PyStmt) (m : Module),
        analyzeFile filePath (.ok stmts) = .ok (some m) →
        m.host_functions =
          (lastOr (hostClassResults stmts) Option.none).map (fun g => ⟨g.1, g.2⟩)) ∧
    (∀ (ms1 : List Module) (m : Module) (ms2 : List Module) (hf : HostFunctions),
        (∀ m' ∈ ms1, m'.host_functions = Option.none) →
        m.host_functions = some hf →
        findHostFunctionsGroup (ms1 ++ m :: ms2) = some hf ∧
        initNamespace (ms1 ++ m :: ms2) = hf.nspace) := by
  constructor
  · intro filePath stmts m h
    simp only [analyzeFile] at h
    split at h
    · exact absurd h (by simp)
    next mfs host heq =>
      split at h
      · exact absurd h (by simp)
      split at h
      · exact absurd h (by simp)
      next stem hstem =>
        simp only [Except.ok.injEq, Option.some.injEq] at h
        subst h
        rw [← analyzeStmts_lastHost stmts [] Option.none mfs host heq]
  · intro ms1
    induction ms1 with
    | nil =>
      intro m ms2 hf _ hm
      constructor
      · simp [findHostFunctionsGroup, List.findSome?_cons, hm]
      · simp [initNamespace, List.find?_cons, hm]
    | cons a t ih =>
      intro m ms2 hf hnone hm
      have ha : a.host_functions = Option.none := hnone a (by simp)
      have ht : ∀ m' ∈ t, m'.host_functions = Option.none := by
        intro m' hm'; exact hnone m' (by simp [hm'])
      obtain ⟨h1, h2⟩ := ih m ms2 hf ht hm
      constructor
      · simpa [findHostFunctionsGroup, List.findSome?_cons, ha] using h1
      · simpa [initNamespace, List.find?_cons, ha] using h2

/-- A host-function group, and two sample modules — one without a group and
one carrying `sampleHostFns` (sample data for the group-selection claim). -/
def sampleHostFns : HostFunctions :=
  { nspace := "ns1",
    functions := [{ name := "h", parameters := [], return_type := .integer }] }

/-- Sample module carrying no host-function group. -/
def sampleNoHostModule : Module :=
  { name := "a", file_path := ["a.py"], module_functions := [],
    host_functions := Option.none }

/-- Sample module carrying `sampleHostFns`. -/
def sampleHostModule : Module :=
  { name := "b", file_path := ["b.py"], module_functions := [],
    host_functions := some sampleHostFns }

/-- Claim C3 (witness for `C3_group_selection`): applied to a one-class file
and to a two-module context whose first module has no group. -/
theorem C3_group_selection_witness :
    ((some { nspace := "ns_a",
             functions := [{ name := "fa", parameters := [], return_type := .integer }] } :
        Option HostFunctions) =
      (lastOr (hostClassResults [sampleHostClass "ns_a" "fa"]) Option.none).map
        (fun g => ⟨g.1, g.2⟩)) ∧
    findHostFunctionsGroup [sampleNoHostModule, sampleHostModule] = some sampleHostFns ∧
    initNamespace [sampleNoHostModule, sampleHostModule] = "ns1" := by
  refine ⟨?_, ?_, ?_⟩
  · exact C3_group_selection.1 ["mod.py"] [sampleHostClass "ns_a" "fa"]
      { name := "mod", file_path := ["mod.py"], module_functions := [],
        host_functions := some
          { nspace := "ns_a",
            functions := [{ name := "fa", parameters := [], return_type := .integer }] } }
      rfl
  · exact (C3_group_selection.2 [sampleNoHostModule] sampleHostModule [] sampleHostFns
      (by intro m' hm'; rw [List.mem_singleton] at hm'; subst hm'; rfl) rfl).1
  · exact (C3_group_selection.2 [sampleNoHostModule] sampleHostModule [] sampleHostFns
      (by intro m' hm'; rw [List.mem_singleton] at hm'; subst hm'; rfl) rfl).2

/-! ## Claim C4 — the dotted import path -/

/-- `mapLast` only looks at each element through the supplied function. -/
theorem mapLast_congr (f g : String → String) (h : ∀ x, f x = g x) :
    ∀ l, mapLast f l = mapLast g l := by
  intro l
  induction l with
  | nil => rfl
  | cons x xs ih =>
    cases xs with
    | nil => simp [mapLast, h]
    | cons y ys => simpa [mapLast] using ih

/-- `dropPyRev` leaves a character list alone when it does not start with the
reversal of `".py"`. -/
theorem dropPyRev_of_not (l : List Char) (h : startsYpDot l = false) :
    dropPyRev l = l := by
  rw [dropPyRev.eq_def]
  split
  · next rest => simp [startsYpDot] at h
  · rfl

/-- The conditional trim in `Module::import_path` is the unconditional
trim: a string not ending in `".py"` is left unchanged by
`trim_end_matches(".py")`. -/
theorem condTrim_eq_trim (s : String) :
    (if endsWithPy s then trimEndMatchesPy s else s) = trimEndMatchesPy s := by
  by_cases h : endsWithPy s
  · rw [if_pos h]
  · rw [if_neg h]
    unfold trimEndMatchesPy
    rw [dropPyRev_of_not _ (by simpa [endsWithPy] using h)]
    rw [List.reverse_reverse]
    rfl

/-- Wrapping an optional dotted tail (`Module::import_path`) around the
module name agrees with the one-pass conditional the spec words use. -/
theorem joinOption_eq (moduleName : String) (c : List String) :
    (match (if c.isEmpty then Option.none else some (String.intercalate "." c)) with
     | some s => moduleName ++ "." ++ s
     | Option.none => moduleName) =
    (if c.isEmpty then moduleName else moduleName ++ "." ++ String.intercalate "." c) := by
  cases h : c.isEmpty <;> simp [h]

/-- Claim C4 (counterexample).  The claim's derivation strips *the source
extension* (one `".py"`) from the last component; the code uses
`trim_end_matches(".py")`, which strips every trailing repetition.  At the
module file `<module_root>/foo.py.py` (extension `py`, so it is walked and
analyzed) the generated shim imports `pkg.foo` while the claimed derivation
yields `pkg.foo.py`. -/
theorem C4_counterexample :
    effectiveImportPath "pkg" ["foo.py.py"] = "pkg.foo" ∧
    specDottedPath "pkg" ["foo.py.py"] = "pkg.foo.py" :=
  ⟨rfl, rfl⟩

/-- Claim C4 (amended): the dotted import path used by the generated shim
equals the claimed derivation with "strip the source extension from the
last component" read as "strip **all trailing repetitions** of the source
extension"; in particular `<module_root>/sub/mod.py` under module `pkg`
gives `pkg.sub.mod` and `<module_root>/__init__.py` gives `pkg`. -/
theorem C4_dotted_path :
    (∀ (moduleName : String) (rel : List String),
        effectiveImportPath moduleName rel = specDottedPathAmended moduleName rel) ∧
    effectiveImportPath "pkg" ["sub", "mod.py"] = "pkg.sub.mod" ∧
    effectiveImportPath "pkg" ["__init__.py"] = "pkg" := by
  refine ⟨?_, rfl, rfl⟩
  intro moduleName rel
  unfold effectiveImportPath importPathRel specDottedPathAmended
  rw [mapLast_congr _ _ condTrim_eq_trim rel]
  exact joinOption_eq moduleName _

/-! ## Claim C5 — fail-fast assembly -/

/-- If any listed file fails analysis, the sequential analysis fails. -/
theorem analyzeAll_error_of_mem
    (files : List (List String × Except String (List PyStmt)))
    (f : List String × Except String (List PyStmt)) (e : String)
    (hmem : f ∈ files) (herr : analyzeFile f.1 f.2 = .error e) :
    ∃ e', analyzeAll files = .error e' := by
  induction files with
  | nil => cases hmem
  | cons g rest ih =>
    rcases List.mem_cons.mp hmem with rfl | hmem'
    · exact ⟨e, by simp [analyzeAll, herr]⟩
    · cases hg : analyzeFile g.1 g.2 with
      | error e1 => exact ⟨e1, by simp [analyzeAll, hg]⟩
      | ok m =>
        obtain ⟨e', he'⟩ := ih hmem'
        exact ⟨e', by simp [analyzeAll, hg, he']⟩

/-- If one listed file fails analysis and every other one succeeds, the
sequential analysis returns precisely that file's error. -/
theorem analyzeAll_unique_error
    (files : List (List String × Except String (List PyStmt)))
    (f : List String × Except String (List PyStmt)) (e : String)
    (hmem : f ∈ files) (herr : analyzeFile f.1 f.2 = .error e)
    (hrest : ∀ g ∈ files, g ≠ f → ∃ m, analyzeFile g.1 g.2 = .ok m) :
    analyzeAll files = .error e := by
  induction files with
  | nil => cases hmem
  | cons g rest ih =>
    by_cases hgf : g = f
    · subst hgf
      simp [analyzeAll, herr]
    · obtain ⟨m, hm⟩ := hrest g (by simp) hgf
      have hmem' : f ∈ rest := by
        rcases List.mem_cons.mp hmem with rfl | hmem'
        · exact absurd rfl hgf
        · exact hmem'
      have hall : analyzeAll rest = .error e :=
        ih hmem' (fun g' hg' hne => hrest g' (by simp [hg']) hne)
      simp [analyzeAll, hm, hall]

/-- Claim C5 (confirmed): project assembly is atomic — if the extraction of
any single filtered file fails, the assembly never yields a
`ProjectContext`, and when every other filtered file succeeds the assembly
returns exactly that file's error. -/
theorem C5_fail_fast
    (projectDir venvDir sitePackagesDir moduleRoot : List String)
    (moduleName : String)
    (files : List (List String × Except String (List PyStmt)))
    (f : List String × Except String (List PyStmt)) (e : String)
    (hmem : f ∈ files) (hfilt : sourceFileFilter moduleRoot f.1 = true)
    (herr : analyzeFile f.1 f.2 = .error e) :
    (∀ ctx, assembleProject projectDir venvDir sitePackagesDir moduleRoot
        moduleName files ≠ .ok ctx) ∧
    ((∀ g ∈ files, sourceFileFilter moduleRoot g.1 = true → g ≠ f →
        ∃ m, analyzeFile g.1 g.2 = .ok m) →
      assembleProject projectDir venvDir sitePackagesDir moduleRoot
        moduleName files = .error e) := by
  have hmemf : f ∈ files.filter (fun g => sourceFileFilter moduleRoot g.1) :=
    List.mem_filter.mpr ⟨hmem, hfilt⟩
  constructor
  · intro ctx hctx
    obtain ⟨e', he'⟩ := analyzeAll_error_of_mem _ f e hmemf herr
    simp [assembleProject, collectModules, he'] at hctx
  · intro hrest
    have hall : analyzeAll (files.filter (fun g => sourceFileFilter moduleRoot g.1)) =
        .error e := by
      refine analyzeAll_unique_error _ f e hmemf herr ?_
      intro g hg hne
      have := List.mem_filter.mp hg
      exact hrest g this.1 this.2 hne
    simp [assembleProject, collectModules, hall]

/-- A valid exported function: `@mod_fn def good(x: int) -> int`. -/
def sampleGoodFn : PyStmt :=
  PyStmt.functionDef "good" [PyExpr.name "mod_fn"]
    [{ name := "x", annot := some (PyExpr.name "int") }]
    (some (PyExpr.name "int")) []

/-- An invalid exported function: `@mod_fn def bad(...)` with no return
annotation. -/
def sampleBadFn : PyStmt :=
  PyStmt.functionDef "bad" [PyExpr.name "mod_fn"] [] Option.none []

/-- Claim C5 (witness for `C5_fail_fast`): a project with one valid exported
function and one function missing its return annotation fails assembly
entirely, surfacing the missing-annotation error. -/
theorem C5_fail_fast_witness :
    assembleProject [] [] [] ["pkg"] "pkg"
        [(["pkg", "good.py"], .ok [sampleGoodFn]),
         (["pkg", "bad.py"], .ok [sampleBadFn])] =
      .error "Missing return type annotation for function bad" := by
  refine (C5_fail_fast [] [] [] ["pkg"] "pkg"
      [(["pkg", "good.py"], .ok [sampleGoodFn]),
       (["pkg", "bad.py"], .ok [sampleBadFn])]
      (["pkg", "bad.py"], .ok [sampleBadFn])
      "Missing return type annotation for function bad"
      (by simp) rfl rfl).2 ?_
  intro g hg _ hne
  rcases List.mem_cons.mp hg with rfl | hg'
  · exact ⟨_, rfl⟩
  · rcases List.mem_cons.mp hg' with rfl | hg''
    · exact absurd rfl hne
    · cases hg''

/-! ## Claim C6 — module discovery without a hint -/

/-- Claim C6 (counterexample).  The claim says resolution succeeds exactly
when the candidate set is a singleton; but after the singleton check the
code additionally requires the candidate directory to *directly* contain
`__init__.py`.  With the single discovered file `pkg/sub/__init__.py` the
candidate set is exactly `{pkg}`, yet resolution fails (with
`MissingModule`) because `pkg/__init__.py` itself does not exist. -/
theorem C6_counterexample :
    discoverCandidates [] [["pkg", "sub", "__init__.py"]] = ["pkg"] ∧
    resolveModuleDiscovery [] [["pkg", "sub", "__init__.py"]] =
      .error ParserErr.missingModule :=
  ⟨rfl, rfl⟩

/-- Claim C6 (amended): without a module hint, resolution succeeds exactly
when the candidate set (distinct first components of discovered
`__init__.py` paths under `import_root`) is a singleton `{c}` **and**
`import_root/c` is a directory directly containing `__init__.py`; it yields
`module_root = import_root/c`, `module_name = c`, and every failure — zero
candidates, several candidates, or a sole candidate without a direct
package-init file — is the `MissingModule` error class. -/
theorem C6_module_discovery (importRoot : List String) (files : List (List String)) :
    (match discoverCandidates importRoot files with
     | [c] =>
       if isDirPath files (importRoot ++ [c]) &&
           isFilePath files (importRoot ++ [c] ++ ["__init__.py"]) then
         resolveModuleDiscovery importRoot files = .ok (importRoot ++ [c], c)
       else
         resolveModuleDiscovery importRoot files = .error ParserErr.missingModule
     | _ => resolveModuleDiscovery importRoot files = .error ParserErr.missingModule) := by
  cases hc : discoverCandidates importRoot files with
  | nil => simp [resolveModuleDiscovery, hc]
  | cons c cs =>
    cases cs with
    | nil =>
      have hres : resolveModuleDiscovery importRoot files =
          (if !isDirPath files (importRoot ++ [c]) ||
              !isFilePath files (importRoot ++ [c] ++ ["__init__.py"]) then
             .error ParserErr.missingModule
           else .ok (importRoot ++ [c], c)) := by
        unfold resolveModuleDiscovery
        rw [hc]
        simp
      have hswap : resolveModuleDiscovery importRoot files =
          (if isDirPath files (importRoot ++ [c]) &&
              isFilePath files (importRoot ++ [c] ++ ["__init__.py"]) then
             .ok (importRoot ++ [c], c)
           else .error ParserErr.missingModule) := by
        rw [hres]
        cases h1 : isDirPath files (importRoot ++ [c]) <;>
          cases h2 : isFilePath files (importRoot ++ [c] ++ ["__init__.py"]) <;> rfl
      cases hd : (isDirPath files (importRoot ++ [c]) &&
          isFilePath files (importRoot ++ [c] ++ ["__init__.py"])) <;>
        simp [hc, hd, hswap]
    | cons c2 cs2 =>
      simp [resolveModuleDiscovery, hc]

/-! ## Claim C7 — dict/Dict/Mapping subscripts -/

/-- For a subscript whose base normalizes to `dict`, `Dict` or `Mapping`,
resolution reduces to the two-argument match of the Rust `dict` arm. -/
theorem tryFromAst_subscript_dict (value slice : PyExpr) (base : String)
    (hv : parseName value = some base)
    (hb : normalizeBase base = "dict" ∨ normalizeBase base = "Dict" ∨
      normalizeBase base = "Mapping") :
    tryFromAst (PyExpr.subscript value slice) =
      (match sliceArgs slice with
       | .cons k (.cons v .nil) =>
         (match tryFromAst k with
          | .error e => .error e
          | .ok kt =>
            match tryFromAst v with
            | .error e => .error e
            | .ok vt => .ok (.map kt vt))
       | _ => .error "Dict type annotation requires two type arguments") := by
  rw [tryFromAst.eq_def]
  rcases hb with hb | hb | hb <;>
    cases slice <;>
      simp only [hv, hb, sliceArgs] <;>
      first
        | (rw [if_neg (by decide)]
           rename_i elts
           cases elts with
           | nil => rfl
           | cons k t =>
             cases t with
             | nil => rfl
             | cons v t2 =>
               cases t2 with
               | nil => rfl
               | cons _ _ => rfl)
        | (rw [if_neg (by decide), if_pos (by decide)])

/-- Claim C7 (confirmed): a subscripted `dict`/`Dict`/`Mapping` annotation
resolves successfully — to `Map{K, V}` — if and only if exactly two
bracketed type arguments are given and both resolve; any other argument
count is the dict arity hard error. -/
theorem C7_dict_arity (value slice : PyExpr) (base : String)
    (hv : parseName value = some base)
    (hb : normalizeBase base = "dict" ∨ normalizeBase base = "Dict" ∨
      normalizeBase base = "Mapping") :
    ((∃ t, tryFromAst (PyExpr.subscript value slice) = .ok t) ↔
      (∃ k v kt vt, sliceArgs slice = .cons k (.cons v .nil) ∧
        tryFromAst k = .ok kt ∧ tryFromAst v = .ok vt)) ∧
    (∀ k v kt vt, sliceArgs slice = .cons k (.cons v .nil) →
      tryFromAst k = .ok kt → tryFromAst v = .ok vt →
      tryFromAst (PyExpr.subscript value slice) = .ok (.map kt vt)) ∧
    ((sliceArgs slice).length ≠ 2 →
      tryFromAst (PyExpr.subscript value slice) =
        .error "Dict type annotation requires two type arguments") := by
  have key := tryFromAst_subscript_dict value slice base hv hb
  refine ⟨⟨?_, ?_⟩, ?_, ?_⟩
  · rintro ⟨t, ht⟩
    rw [key] at ht
    cases hs : sliceArgs slice with
    | nil => rw [hs] at ht; exact absurd ht (by simp)
    | cons k t1 =>
      cases t1 with
      | nil => rw [hs] at ht; exact absurd ht (by simp)
      | cons v t2 =>
        cases t2 with
        | nil =>
          rw [hs] at ht
          cases h1 : tryFromAst k with
          | error e => simp [h1] at ht
          | ok kt =>
            cases h2 : tryFromAst v with
            | error e => simp [h1, h2] at ht
            | ok vt => exact ⟨k, v, kt, vt, rfl, h1, h2⟩
        | cons _ _ => rw [hs] at ht; exact absurd ht (by simp)
  · rintro ⟨k, v, kt, vt, hs, h1, h2⟩
    exact ⟨.map kt vt, by rw [key, hs]; simp [h1, h2]⟩
  · intro k v kt vt hs h1 h2
    rw [key, hs]
    simp [h1, h2]
  · intro hlen
    rw [key]
    cases hs : sliceArgs slice with
    | nil => rfl
    | cons k t1 =>
      cases t1 with
      | nil => rfl
      | cons v t2 =>
        cases t2 with
        | nil => exact absurd (by rw [hs]; rfl) hlen
        | cons _ _ => rfl

/-- Claim C7 (witness for `C7_dict_arity`): `dict[str, int]` resolves to
`Map{String, Integer}` and `dict[str]` (one argument) is the arity error. -/
theorem C7_dict_arity_witness :
    tryFromAst (PyExpr.subscript (PyExpr.name "dict")
        (PyExpr.tupleE (.cons (.name "str") (.cons (.name "int") .nil)))) =
      .ok (.map .string .integer) ∧
    tryFromAst (PyExpr.subscript (PyExpr.name "dict") (PyExpr.name "str")) =
      .error "Dict type annotation requires two type arguments" := by
  constructor
  · exact (C7_dict_arity (PyExpr.name "dict")
        (PyExpr.tupleE (.cons (.name "str") (.cons (.name "int") .nil)))
        "dict" rfl (Or.inl rfl)).2.1
      (.name "str") (.name "int") .string .integer rfl rfl rfl
  · exact (C7_dict_arity (PyExpr.name "dict") (PyExpr.name "str")
        "dict" rfl (Or.inl rfl)).2.2 (by decide)

/-! ## Claim C10 — extra list arguments are ignored -/

/-- Claim C10 (confirmed): a `list`/`List` subscript with more than one
bracketed type argument does not get an arity check — it resolves to `List`
of the first argument's resolved type, never touching the extra arguments
(the equation holds for every tail `rest`). -/
theorem C10_list_extra_args (value : PyExpr) (base : String) (a : PyExpr)
    (rest : PyExprList)
    (hv : parseName value = some base)
    (hb : normalizeBase base = "list" ∨ normalizeBase base = "List")
    (_hr : rest ≠ PyExprList.nil) :
    tryFromAst (PyExpr.subscript value (PyExpr.tupleE (PyExprList.cons a rest))) =
      (match tryFromAst a with
       | .ok t => .ok (.list t)
       | .error e => .error e) := by
  rw [tryFromAst.eq_def]
  rcases hb with hb | hb <;>
    simp only [hv, hb] <;>
    rw [if_neg (by decide)] <;>
    rfl

/-- Claim C10 (witness for `C10_list_extra_args`): `list[int, str]` resolves
to `List(Integer)`, silently ignoring `str`. -/
theorem C10_list_extra_args_witness :
    tryFromAst (PyExpr.subscript (PyExpr.name "list")
        (PyExpr.tupleE (.cons (.name "int") (.cons (.name "str") .nil)))) =
      .ok (.list .integer) := by
  have h := C10_list_extra_args (PyExpr.name "list") "list" (.name "int")
    (.cons (.name "str") .nil) rfl (Or.inl rfl) (by intro h; cases h)
  rw [h]
  rfl

/-! ## Claim C8 — marker recognition and the namespace argument -/

/-- Claim C8 (confirmed): marker recognition accepts a bare name, a
qualified attribute, and both call-wrapped forms equally — each matches
exactly when the trailing identifier equals the marker — and a
host-functions class whose `host_fns` decorator carries no literal string
`namespace` argument is rejected with an error. -/
theorem C8_marker_recognition :
    (∀ id n, isDecoratorName (PyExpr.name id) n = (id == n)) ∧
    (∀ v id n, isDecoratorName (PyExpr.attribute v id) n = (id == n)) ∧
    (∀ id args kws n, isDecoratorName (PyExpr.call (PyExpr.name id) args kws) n = (id == n)) ∧
    (∀ v id args kws n,
      isDecoratorName (PyExpr.call (PyExpr.attribute v id) args kws) n = (id == n)) ∧
    (∀ (decorators : List PyExpr) (body : List PyStmt) (d : PyExpr),
      decorators.find? (fun x => isDecoratorName x "host_fns") = some d →
      namespaceArg d = Option.none →
      parseHostFnsClass decorators body =
        .error "Missing namespace argument in host_fns decorator") := by
  refine ⟨fun _ _ => rfl, fun _ _ _ => rfl, fun _ _ _ _ => rfl, fun _ _ _ _ _ => rfl,
    ?_⟩
  intro decorators body d hfind hns
  simp only [parseHostFnsClass, hfind, hns]

/-- Claim C8 (witness for `C8_marker_recognition`): the four marker shapes
at the `mod_fn` marker, and the rejection of `@host_fns` (no arguments,
hence no namespace). -/
theorem C8_marker_recognition_witness :
    isDecoratorName (PyExpr.name "mod_fn") "mod_fn" = true ∧
    isDecoratorName (PyExpr.attribute (PyExpr.name "binmod") "mod_fn") "mod_fn" = true ∧
    isDecoratorName (PyExpr.call (PyExpr.name "mod_fn") .nil .nil) "mod_fn" = true ∧
    isDecoratorName
      (PyExpr.call (PyExpr.attribute (PyExpr.name "binmod") "mod_fn") .nil .nil)
      "mod_fn" = true ∧
    parseHostFnsClass [PyExpr.name "host_fns"] [] =
      .error "Missing namespace argument in host_fns decorator" := by
  refine ⟨?_, ?_, ?_, ?_, ?_⟩
  · exact C8_marker_recognition.1 "mod_fn" "mod_fn"
  · exact C8_marker_recognition.2.1 (PyExpr.name "binmod") "mod_fn" "mod_fn"
  · exact C8_marker_recognition.2.2.1 "mod_fn" .nil .nil "mod_fn"
  · exact C8_marker_recognition.2.2.2.1 (PyExpr.name "binmod") "mod_fn" .nil .nil "mod_fn"
  · exact C8_marker_recognition.2.2.2.2 [PyExpr.name "host_fns"] []
      (PyExpr.name "host_fns") rfl rfl

/-! ## Claim C9 — a marked class with no marked method -/

/-- A parsed host-functions class that yields a group yields a non-empty
one (`parse_host_fns_class` returns `None` for an empty method list). -/
theorem parseHostFnsClass_nonempty (decorators : List PyExpr) (body : List PyStmt)
    (ns : String) (fns : List HostFunction)
    (h : parseHostFnsClass decorators body = .ok (some (ns, fns))) :
    fns ≠ [] := by
  simp only [parseHostFnsClass] at h
  split at h
  · exact absurd h (by simp)
  split at h
  · exact absurd h (by simp)
  split at h
  · exact absurd h (by simp)
  next l heq =>
    by_cases hl : l.isEmpty
    · rw [if_pos hl] at h
      exact absurd h (by simp)
    · rw [if_neg hl] at h
      simp only [Except.ok.injEq, Option.some.injEq, Prod.mk.injEq] at h
      intro hfns
      exact hl (by simp [h.2, hfns])

/-- The statement loop preserves "the host group, when present, is
non-empty". -/
theorem analyzeStmts_host_nonempty (stmts : List PyStmt) :
    ∀ mfs host mfs' host',
      analyzeStmts stmts mfs host = .ok (mfs', host') →
      (∀ ns fns, host = some (ns, fns) → fns ≠ []) →
      (∀ ns fns, host' = some (ns, fns) → fns ≠ []) := by
  induction stmts with
  | nil =>
    intro mfs host mfs' host' h hinv
    simp only [analyzeStmts, Except.ok.injEq, Prod.mk.injEq] at h
    rw [← h.2]
    exact hinv
  | cons stmt rest ih =>
    intro mfs host mfs' host' h hinv
    cases stmt with
    | functionDef n decs ps ret body =>
      simp only [analyzeStmts] at h
      by_cases hd : hasFuncDecorator decs "mod_fn"
      · rw [if_pos hd] at h
        cases hm : moduleFunctionTryFromAst n ps ret body with
        | error e => rw [hm] at h; exact absurd h (by simp)
        | ok mf => rw [hm] at h; exact ih _ _ _ _ h hinv
      · rw [if_neg hd] at h
        exact ih _ _ _ _ h hinv
    | classDef n decs body =>
      simp only [analyzeStmts] at h
      by_cases hd : hasClassDecorator decs "host_fns"
      · rw [if_pos hd] at h
        cases hp : parseHostFnsClass decs body with
        | error e => rw [hp] at h; exact absurd h (by simp)
        | ok g? =>
          cases g? with
          | none => rw [hp] at h; exact ih _ _ _ _ h hinv
          | some group =>
            rw [hp] at h
            refine ih _ _ _ _ h ?_
            intro ns fns hg
            obtain ⟨rfl, rfl⟩ : group.1 = ns ∧ group.2 = fns := by
              cases group; simpa using hg
            exact parseHostFnsClass_nonempty decs body _ _ (by simpa using hp)
      · rw [if_neg hd] at h
        exact ih _ _ _ _ h hinv
    | exprStmt v =>
      simp only [analyzeStmts] at h
      exact ih _ _ _ _ h hinv
    | otherStmt =>
      simp only [analyzeStmts] at h
      exact ih _ _ _ _ h hinv

/-- Claim C9 (confirmed): a file whose only marked declaration is a
host-functions class with a valid namespace but zero marked methods
analyzes to `none` (exhibited concretely), and in general every `Module`
that `analyze_file` returns carries at least one extracted module function
or a non-empty host-function group. -/
theorem C9_no_empty_module :
    analyzeFile ["pkg", "only_class.py"]
        (.ok [PyStmt.classDef "H"
          [PyExpr.call (PyExpr.name "host_fns") PyExprList.nil
            (PyKeywords.cons (some "namespace") (PyExpr.stringLiteral "ns") PyKeywords.nil)]
          []]) = .ok Option.none ∧
    (∀ (filePath : List String) (parsed : Except String (List PyStmt)) (m : Module),
      analyzeFile filePath parsed = .ok (some m) →
      m.module_functions ≠ [] ∨
        ∃ hf, m.host_functions = some hf ∧ hf.functions ≠ []) := by
  refine ⟨rfl, ?_⟩
  intro filePath parsed m h
  cases parsed with
  | error e => exact absurd h (by simp [analyzeFile])
  | ok stmts =>
    simp only [analyzeFile] at h
    split at h
    · exact absurd h (by simp)
    next mfs host heq =>
      by_cases hcond : (mfs.isEmpty && host.isNone) = true
      · rw [if_pos hcond] at h
        exact absurd h (by simp)
      · rw [if_neg hcond] at h
        split at h
        · exact absurd h (by simp)
        next stem hstem =>
          simp only [Except.ok.injEq, Option.some.injEq] at h
          subst h
          cases mfs with
          | cons mf mfs' => exact Or.inl (by simp)
          | nil =>
            cases host with
            | none => exact absurd rfl hcond
            | some group =>
              refine Or.inr ⟨⟨group.1, group.2⟩, by cases group; rfl, ?_⟩
              exact analyzeStmts_host_nonempty stmts [] Option.none [] (some group) heq
                (fun ns fns hfalse => by cases hfalse) group.1 group.2
                (by cases group; rfl)

/-- The extraction of `sampleGoodFn` as a `ModuleFunction`. -/
def sampleGoodModuleFunction : ModuleFunction :=
  { name := "good", docstring := Option.none,
    parameters := [{ name := "x", type_hint := .integer }],
    return_type := .integer }

/-- The module extracted from a file holding only `sampleGoodFn`. -/
def sampleGoodModule : Module :=
  { name := "good", file_path := ["pkg", "good.py"],
    module_functions := [sampleGoodModuleFunction],
    host_functions := Option.none }

/-- Claim C9 (witness for `C9_no_empty_module`): applied to a file holding
one valid exported function, whose resulting module indeed has a non-empty
function list. -/
theorem C9_no_empty_module_witness :
    sampleGoodModule.module_functions ≠ [] ∨
      ∃ hf, sampleGoodModule.host_functions = some hf ∧ hf.functions ≠ [] :=
  C9_no_empty_module.2 ["pkg", "good.py"] (.ok [sampleGoodFn]) sampleGoodModule rfl

end Py2Binmod
